import Mathlib

/-
Verification of the command execution engine of the AI-OS (PicoBox) shell.

The definitions below are a shallow embedding of the C sources:
  src/src/core/registry.c      (command registry)
  src/src/pipe_helpers.c       (pipeline orchestrator, exec_pipeline)
  src/src/exec_helpers.c       (exec_command_external, exec_command_with_redirects, is_builtin)
  src/src/redirect_helpers.c   (apply_redirection, apply_redirections)
  src/src/shell_bnfc.c         (builtin_cd, exec_builtin, simple_command_to_argv,
                                execute_single_simple_command, execute_pipeline_command)

Operating system effects (pipe, fork, waitpid, open, execvp, chdir) are modelled by
explicit oracles: a Bool or Option valued field says whether the call succeeds and,
for waitpid, which termination status it reports.  File descriptors returned by
pipe are modelled as naturals handed out by an increasing allocator, and the set of
descriptors the orchestrating process holds open is tracked as an explicit list.
-/

namespace Picobox


/- Return codes from include/picobox.h -/

def EXIT_OK : Int := 0

def EXIT_ERROR : Int := 1

/-
=====================================================================
Command registry, from src/src/core/registry.c
=====================================================================
A registry entry models cmd_spec_t: only the name takes part in lookup;
the run field stands for the handler pointer so that distinct entries
with the same name can be told apart.  The C name pointer may be NULL,
hence Option String.
-/

structure CmdSpec where
  name : Option String
  run : Nat
deriving DecidableEq

structure Registry where
  entries : List CmdSpec

def MAX_COMMANDS : Nat := 64

def emptyRegistry : Registry := ⟨[]⟩

/-
register_command (registry.c lines 35 to 51): a NULL spec is ignored; past
MAX_COMMANDS the call warns and drops the entry; otherwise the entry is
appended at position command_count.
-/
def register_command (reg : Registry) (spec : Option CmdSpec) : Registry :=
  match spec with
  | none => reg
  | some s =>
    if MAX_COMMANDS ≤ reg.entries.length then reg
    else { entries := reg.entries ++ [s] }

/-
find_command (registry.c lines 62 to 89): a NULL name returns NULL; otherwise a
linear scan returns the first entry whose non NULL name compares strcmp equal
to the query.  Entries with a NULL name are skipped, which the predicate below
reproduces because none never equals some n.
-/
def find_command (reg : Registry) (name : Option String) : Option CmdSpec :=
  match name with
  | none => none
  | some n => reg.entries.find? fun sp => decide (sp.name = some n)

/- A registry built by a sequence of register_command calls starting empty. -/
def mkRegistry (l : List CmdSpec) : Registry :=
  l.foldl (fun r s => register_command r (some s)) emptyRegistry

/-
=====================================================================
Pipeline orchestrator, from src/src/pipe_helpers.c (exec_pipeline)
=====================================================================
-/

/- Termination status reported by a successful waitpid: a process that
terminated either exited normally with a code or was killed by a signal. -/
inductive ChildStatus where
  | exited (code : Nat)
  | signaled (sig : Nat)

/- The translation the wait loop of exec_pipeline applies to the status of the
last stage (lines 189 to 194): WEXITSTATUS on normal exit, 128 plus WTERMSIG
on termination by signal.  The same translation appears in
exec_command_external and exec_command_with_redirects. -/
def statusOf : ChildStatus → Int
  | ChildStatus.exited c => (c : Int)
  | ChildStatus.signaled s => 128 + (s : Int)

/- Environment oracle for one exec_pipeline call: whether malloc for the pid
array succeeds, whether the pipe and fork calls of iteration i succeed, and
the result waitpid reports for child i (none models a failing waitpid). -/
structure PipeEnv where
  mallocOk : Bool
  pipeOk : Nat → Bool
  forkOk : Nat → Bool
  wait : Nat → Option ChildStatus

/- Orchestrator state inside the spawn loop: the descriptor allocator, the
pipe descriptors currently open in the orchestrating process, the saved
prev_pipe pair, and counters for created pipes and forked children. -/
structure SpawnState where
  nextFd : Nat
  openFds : List Nat
  prevPipe : Option (Nat × Nat)
  pipesCreated : Nat
  spawned : Nat

/- Observable outcome of one exec_pipeline call: the returned int, how many
pipes were created, how many children were forked, the indices on which
waitpid was called, and the pipe descriptors still open in the orchestrating
process when the call returns. -/
structure PipelineResult where
  ret : Int
  pipesCreated : Nat
  spawned : Nat
  awaited : List Nat
  openFds : List Nat

/- Parent closes both ends of prev_pipe (lines 161 to 164 after a fork, and
lines 174 to 177 after the loop).  Closing a descriptor removes it from the
set of open descriptors; closing one that is already closed changes nothing,
exactly as the ignored EBADF of a double close. -/
def closePrev (st : SpawnState) : SpawnState :=
  match st.prevPipe with
  | some (r, w) => { st with openFds := (st.openFds.erase r).erase w }
  | none => st

/-
The spawn loop of exec_pipeline (lines 74 to 171), one stage per list element;
i is the loop index.  For a non last stage a pipe is created first (lines 85
to 91); a failing pipe or fork frees the pid array and returns EXIT_ERROR at
once (lines 86 to 90 and 96 to 100), with no child awaited.  After a
successful fork the parent closes the prev_pipe ends and, when a pipe was
created this iteration, saves it as prev_pipe (lines 156 to 170).  When the
last stage forks, prev_pipe keeps its stale value, matching the C code.
-/
def spawnGo (env : PipeEnv) : Nat → SpawnState → List (List String) →
    Except PipelineResult SpawnState
  | _, st, [] => Except.ok st
  | i, st, [_] =>
    if env.forkOk i then
      Except.ok (closePrev { st with spawned := st.spawned + 1 })
    else
      Except.error { ret := EXIT_ERROR, pipesCreated := st.pipesCreated,
                     spawned := st.spawned, awaited := [], openFds := st.openFds }
  | i, st, _ :: b :: rest =>
    if env.pipeOk i then
      let st1 : SpawnState :=
        { st with nextFd := st.nextFd + 2,
                  openFds := st.nextFd :: (st.nextFd + 1) :: st.openFds,
                  pipesCreated := st.pipesCreated + 1 }
      if env.forkOk i then
        spawnGo env (i + 1)
          { closePrev { st1 with spawned := st1.spawned + 1 } with
              prevPipe := some (st.nextFd, st.nextFd + 1) }
          (b :: rest)
      else
        Except.error { ret := EXIT_ERROR, pipesCreated := st1.pipesCreated,
                       spawned := st1.spawned, awaited := [], openFds := st1.openFds }
    else
      Except.error { ret := EXIT_ERROR, pipesCreated := st.pipesCreated,
                     spawned := st.spawned, awaited := [], openFds := st.openFds }

/-
The wait loop of exec_pipeline (lines 182 to 196): waitpid is called for every
child in spawn order; a failing waitpid only prints; a successful waitpid on
the last index overwrites the status with the translated termination status.
-/
def waitLoop (env : PipeEnv) (count : Nat) (acc : Int) : List Nat → Int
  | [] => acc
  | i :: rest =>
    let acc2 := match env.wait i with
      | none => acc
      | some cs => if i = count - 1 then statusOf cs else acc
    waitLoop env count acc2 rest

/-
exec_pipeline (pipe_helpers.c lines 33 to 201).  count <= 0 or a NULL
argv_list returns EXIT_ERROR (lines 55 to 58), as does a failing malloc of
the pid array (lines 61 to 65); in both cases nothing was spawned and nothing
is awaited.  Otherwise the spawn loop runs, the orchestrator closes any pipe
still recorded in prev_pipe (lines 174 to 177), waitpid is called once per
child, and the status seeded with 0 (line 36) is returned.
-/
def exec_pipeline (env : PipeEnv) (argvList : List (List String)) : PipelineResult :=
  if argvList.isEmpty then
    { ret := EXIT_ERROR, pipesCreated := 0, spawned := 0, awaited := [], openFds := [] }
  else if env.mallocOk then
    match spawnGo env 0 ⟨0, [], none, 0, 0⟩ argvList with
    | Except.error r => r
    | Except.ok st =>
      let st2 := closePrev st
      { ret := waitLoop env argvList.length 0 (List.range argvList.length),
        pipesCreated := st2.pipesCreated, spawned := st2.spawned,
        awaited := List.range argvList.length, openFds := st2.openFds }
  else
    { ret := EXIT_ERROR, pipesCreated := 0, spawned := 0, awaited := [], openFds := [] }

/-
exec_command_external (exec_helpers.c lines 22 to 76): NULL argv or argv[0]
returns EXIT_ERROR; a failing fork returns EXIT_ERROR; a failing waitpid
returns EXIT_ERROR; otherwise the termination status of the single child is
translated exactly as in the pipeline wait loop.
-/
def exec_command_external (forkOk : Bool) (wait : Option ChildStatus)
    (argv : List String) : Int :=
  match argv with
  | [] => EXIT_ERROR
  | _ :: _ =>
    if forkOk then
      match wait with
      | none => EXIT_ERROR
      | some cs => statusOf cs
    else EXIT_ERROR

/- State of the spawn loop on entering iteration k, all earlier pipe and fork
calls having succeeded: for k = 0 the initial state of exec_pipeline; for
k >= 1 the pipe created at iteration k - 1 with descriptors 2(k-1) and
2(k-1)+1 is the only one still open and is saved as prev_pipe. -/
def loopState : Nat → SpawnState
  | 0 => ⟨0, [], none, 0, 0⟩
  | k + 1 => ⟨2 * k + 2, [2 * k, 2 * k + 1], some (2 * k, 2 * k + 1), k + 1, k + 1⟩

/- State after the spawn loop has processed all n stages successfully. -/
def endState : Nat → SpawnState
  | 0 => ⟨0, [], none, 0, 0⟩
  | 1 => ⟨0, [], none, 0, 1⟩
  | k + 2 => ⟨2 * k + 2, [], some (2 * k, 2 * k + 1), k + 1, k + 2⟩

/- A fully cooperative environment: every call succeeds and every child is
reported as having exited with code 3. -/
def envAllOk3 : PipeEnv :=
  ⟨true, fun _ => true, fun _ => true, fun _ => some (ChildStatus.exited 3)⟩

/- An environment whose fork call succeeds only at iteration 0: stage 1 of a
two stage pipeline fails to spawn. -/
def envForkFail1 : PipeEnv :=
  ⟨true, fun _ => true, fun i => decide (i = 0), fun _ => none⟩

/-
=====================================================================
Redirections and simple commands, from src/src/redirect_helpers.c,
src/src/exec_helpers.c and src/src/shell_bnfc.c
=====================================================================
-/

/- REDIR_INPUT, REDIR_OUTPUT, REDIR_APPEND from redirect_helpers.h. -/
inductive RedirType where
  | input
  | output
  | append
deriving DecidableEq

/- struct redirection: type and filename; the filename pointer may be NULL. -/
structure Redirection where
  type : RedirType
  filename : Option String
deriving DecidableEq

/- A parsed simple command: program word, argument words, redirections, as
carried by the BNFC SimpleCommand node. -/
structure SimpleCommand where
  program : String
  args : List String
  redirs : List Redirection

/- simple_command_to_argv (shell_bnfc.c lines 352 to 360) delegates to
words_to_argv (lines 291 to 333), which builds the argv array from the
command word and the argument words only; the redirection list of the node
is not consulted. -/
def simple_command_to_argv (sc : SimpleCommand) : List String :=
  sc.program :: sc.args

/- extract_redirections (shell_bnfc.c lines 380 to 442) copies the
redirection list of the node, in order, into an array. -/
def extract_redirections (sc : SimpleCommand) : List Redirection :=
  sc.redirs

/- The actions a spawned pipeline child performs, in order, before and at
program load. -/
inductive ChildAction where
  | dupStdin (fd : Nat)
  | dupStdout (fd : Nat)
  | closeFd (fd : Nat)
  | applyRedir (r : Redirection)
  | execProg (argv : List String)
deriving DecidableEq

def ChildAction.isApplyRedir : ChildAction → Bool
  | ChildAction.applyRedir _ => true
  | _ => false

/- The child block of exec_pipeline (pipe_helpers.c lines 103 to 154): if
there is a previous pipe, dup2 its read end onto stdin and close both ends;
if there is a current pipe (the stage is not last), dup2 its write end onto
stdout and close both ends; then execvp the argv.  No other action is
performed: in particular no redirection is applied. -/
def pipelineChildActions (prevPipe currPipe : Option (Nat × Nat))
    (argv : List String) : List ChildAction :=
  (match prevPipe with
   | some (r, w) =>
     [ChildAction.dupStdin r, ChildAction.closeFd r, ChildAction.closeFd w]
   | none => []) ++
  (match currPipe with
   | some (r, w) =>
     [ChildAction.dupStdout w, ChildAction.closeFd r, ChildAction.closeFd w]
   | none => []) ++
  [ChildAction.execProg argv]

/- execute_pipeline_command (shell_bnfc.c lines 516 to 619): zero commands
returns EXIT_OK; otherwise each SimpleCommand is converted with
simple_command_to_argv and the list is handed to exec_pipeline, whose status
is returned. -/
def execute_pipeline_command (env : PipeEnv) (stages : List SimpleCommand) : Int :=
  match stages with
  | [] => EXIT_OK
  | _ :: _ => (exec_pipeline env (stages.map simple_command_to_argv)).ret

/- Environment oracle for one child executing a simple command: whether open
for reading or for writing or creating succeeds on a path, whether execvp
can locate and load a program, whether fork and waitpid succeed in the
parent, and the termination status of a program that did load.  dup2 onto a
standard descriptor from a freshly opened valid descriptor is modelled as
succeeding. -/
structure World where
  readable : String → Bool
  writable : String → Bool
  execOk : String → Bool
  forkOk : Bool
  waitOk : Bool
  runStatus : List String → ChildStatus

/- apply_redirection (redirect_helpers.c lines 22 to 79): a NULL filename is
an error; REDIR_INPUT opens the path read only, REDIR_OUTPUT opens it for
writing with truncation, REDIR_APPEND opens it for appending, each failing
when the oracle says the open fails; on success the descriptor is dup2ed
onto the standard stream and the original closed.  Returns 0 on success and
-1 on error. -/
def apply_redirection (w : World) (type : RedirType)
    (filename : Option String) : Int :=
  match filename with
  | none => -1
  | some f =>
    match type with
    | RedirType.input => if w.readable f then 0 else -1
    | RedirType.output => if w.writable f then 0 else -1
    | RedirType.append => if w.writable f then 0 else -1

/- apply_redirections (redirect_helpers.c lines 89 to 106): applies each
redirection in order, stopping with -1 at the first failure. -/
def apply_redirections (w : World) : List Redirection → Int
  | [] => 0
  | r :: rest =>
    if apply_redirection w r.type r.filename < 0 then -1
    else apply_redirections w rest

/- What becomes of the child forked by exec_command_with_redirects. -/
inductive ChildOutcome where
  | exitedBeforeExec (code : Nat)
  | execed (argv : List String)
  | exitedAfterExecFail (code : Nat)
deriving DecidableEq

/- The child block of exec_command_with_redirects (exec_helpers.c lines 116
to 132): with a nonempty redirection array, a failing apply_redirections
makes the child _exit(EXIT_ERROR) before execvp; otherwise execvp is
attempted, and if it fails the child _exits with 127. -/
def childRun (w : World) (argv : List String)
    (redirs : List Redirection) : ChildOutcome :=
  if 0 < redirs.length ∧ apply_redirections w redirs < 0 then
    ChildOutcome.exitedBeforeExec 1
  else
    match argv with
    | prog :: _ =>
      if w.execOk prog then ChildOutcome.execed argv
      else ChildOutcome.exitedAfterExecFail 127
    | [] => ChildOutcome.exitedAfterExecFail 127

/- The termination status the parent observes through waitpid: a child that
_exited carries that code; a child that loaded its program carries the
status of the program run. -/
def childTermination (w : World) (argv : List String)
    (redirs : List Redirection) : ChildStatus :=
  match childRun w argv redirs with
  | ChildOutcome.exitedBeforeExec c => ChildStatus.exited c
  | ChildOutcome.exitedAfterExecFail c => ChildStatus.exited c
  | ChildOutcome.execed a => w.runStatus a

/- exec_command_with_redirects (exec_helpers.c lines 98 to 152): NULL argv or
argv[0] is EXIT_ERROR; a failing fork or waitpid is EXIT_ERROR; otherwise
the termination status of the child is translated: exit code on normal exit,
128 plus the signal number on termination by signal. -/
def exec_command_with_redirects (w : World) (argv : List String)
    (redirs : List Redirection) : Int :=
  match argv with
  | [] => EXIT_ERROR
  | _ :: _ =>
    if w.forkOk then
      if w.waitOk then
        match childTermination w argv redirs with
        | ChildStatus.exited c => (c : Int)
        | ChildStatus.signaled s => 128 + (s : Int)
      else EXIT_ERROR
    else EXIT_ERROR

/- is_builtin (exec_helpers.c lines 86 to 91). -/
def is_builtin (cmd : String) : Bool :=
  cmd == "cd" || cmd == "exit" || cmd == "help"

/-
=====================================================================
Builtins and the dispatcher, from src/src/shell_bnfc.c
=====================================================================
-/

/- The directories that exist for chdir, and the HOME variable. -/
structure ShellWorld where
  dirs : List String
  home : Option String

/- Shell wide mutable state: the effective working directory of the shell
process. -/
structure ShellState where
  cwd : String

/- The chdir system call: moves the process working directory when the path
names an existing directory and returns 0; otherwise returns -1 and the
working directory is untouched. -/
def chdir (sw : ShellWorld) (st : ShellState) (path : String) : Int × ShellState :=
  if path ∈ sw.dirs then (0, ⟨path⟩) else (-1, st)

/- builtin_exit (shell_bnfc.c lines 61 to 66) returns -1 to signal shell
exit. -/
def builtin_exit : Int := -1

/- builtin_cd (shell_bnfc.c lines 110 to 131): without an argument the
target is HOME, and an unset HOME is EXIT_ERROR; with an argument the target
is argv[1]; a failing chdir is EXIT_ERROR, a successful one EXIT_OK. -/
def builtin_cd (sw : ShellWorld) (st : ShellState) (argv : List String) :
    Int × ShellState :=
  match (if argv.length < 2 then sw.home else argv[1]?) with
  | none => (EXIT_ERROR, st)
  | some dir =>
    let p := chdir sw st dir
    if p.1 ≠ 0 then (EXIT_ERROR, p.2) else (EXIT_OK, p.2)

/- exec_builtin (shell_bnfc.c lines 259 to 271): dispatch on argv[0] to cd,
exit or help; anything else is EXIT_ERROR. -/
def exec_builtin (sw : ShellWorld) (st : ShellState) (argv : List String) :
    Int × ShellState :=
  match argv with
  | "cd" :: _ => builtin_cd sw st argv
  | "exit" :: _ => (builtin_exit, st)
  | "help" :: _ => (EXIT_OK, st)
  | _ => (EXIT_ERROR, st)

/- The outcome the interactive loop derives from a command status
(execute_input, shell_bnfc.c lines 693 to 699): -1 signals shell exit,
anything else is an ordinary exit code and the session continues. -/
inductive ExitOutcome where
  | code (n : Int)
  | exitShell

def dispatchOutcome (s : Int) : ExitOutcome :=
  if s = -1 then ExitOutcome.exitShell else ExitOutcome.code s

/- execute_single_simple_command (shell_bnfc.c lines 462 to 498): builtins
run in the shell process and ignore redirections (warning only); any other
command runs through exec_command_with_redirects, leaving shell state
untouched. -/
def execute_single_simple_command (w : World) (sw : ShellWorld)
    (st : ShellState) (sc : SimpleCommand) : Int × ShellState :=
  if is_builtin sc.program then
    exec_builtin sw st (simple_command_to_argv sc)
  else
    (exec_command_with_redirects w (simple_command_to_argv sc)
      (extract_redirections sc), st)

/- Concrete worlds used by witnesses and counterexamples. -/

/- No path can be opened for reading; only the program cat loads. -/
def worldNoRead : World :=
  ⟨fun _ => false, fun _ => true, fun s => s == "cat", true, true,
   fun _ => ChildStatus.exited 0⟩

/- Every open succeeds but no program loads. -/
def worldNoProg : World :=
  ⟨fun _ => true, fun _ => true, fun _ => false, true, true,
   fun _ => ChildStatus.exited 0⟩

def shellWorld9 : ShellWorld := ⟨["/home"], some "/home"⟩

/- Helper lemmas about find? and registration. -/

theorem find?_append_some {α : Type} {l1 l2 : List α} {p : α → Bool} {e : α}
    (h : l1.find? p = some e) : (l1 ++ l2).find? p = some e := by
  induction l1 with
  | nil => simp [List.find?] at h
  | cons a t ih =>
    by_cases hpa : p a = true
    · simp [List.find?_cons_of_pos _ hpa] at h ⊢
      exact h
    · rw [List.find?_cons_of_neg _ (by simpa using hpa)] at h
      simpa [List.find?_cons_of_neg _ (by simpa using hpa)] using ih h

theorem find?_append_none {α : Type} {l1 l2 : List α} {p : α → Bool}
    (h : l1.find? p = none) : (l1 ++ l2).find? p = l2.find? p := by
  induction l1 with
  | nil => simp
  | cons a t ih =>
    by_cases hpa : p a = true
    · simp [List.find?_cons_of_pos _ hpa] at h
    · rw [List.find?_cons_of_neg _ (by simpa using hpa)] at h
      simpa [List.find?_cons_of_neg _ (by simpa using hpa)] using ih h

theorem find?_earliest {α : Type} (l : List α) (p : α → Bool) (e : α)
    (h : l.find? p = some e) :
    ∃ i, i < l.length ∧ l[i]? = some e ∧ p e = true ∧
      ∀ j, j < i → ∀ x, l[j]? = some x → p x = false := by
  induction l with
  | nil => simp [List.find?] at h
  | cons a t ih =>
    by_cases hpa : p a = true
    · rw [List.find?_cons_of_pos _ hpa] at h
      injection h with h2
      subst h2
      refine ⟨0, by simp, by simp, hpa, ?_⟩
      intro j hj x hx; omega
    · rw [List.find?_cons_of_neg _ (by simpa using hpa)] at h
      obtain ⟨i, hi, hget, hpe, hmin⟩ := ih h
      refine ⟨i + 1, by simpa using hi, by simpa using hget, hpe, ?_⟩
      intro j hj x hx
      cases j with
      | zero =>
        simp at hx
        subst hx
        simpa using hpa
      | succ k =>
        simp at hx
        exact hmin k (by omega) x hx

theorem find_after_register_dup (reg : Registry) (s : CmdSpec) (nm : String)
    (e : CmdSpec) (hs : s.name = some nm)
    (hfound : find_command reg (some nm) = some e) :
    ∀ n, find_command (register_command reg (some s)) n = find_command reg n := by
  intro n
  unfold register_command
  by_cases hcap : MAX_COMMANDS ≤ reg.entries.length
  · simp [hcap]
  · simp only [hcap, if_false]
    cases n with
    | none => simp [find_command]
    | some n2 =>
      simp only [find_command]
      by_cases hfind : reg.entries.find? (fun sp => decide (sp.name = some n2)) = none
      · rw [find?_append_none hfind, hfind]
        rw [show (List.find? (fun sp => decide (sp.name = some n2)) [s]) =
            (if s.name = some n2 then some s else none) by
          by_cases hn : s.name = some n2 <;> simp [List.find?, hn]]
        by_cases hn : s.name = some n2
        · exfalso
          rw [hs] at hn
          injection hn with hn2
          subst hn2
          simp only [find_command] at hfound
          rw [hfind] at hfound
          exact Option.noConfusion hfound
        · simp [hn]
      · obtain ⟨x, hx⟩ := Option.ne_none_iff_exists'.mp hfind
        rw [find?_append_some hx, hx]

theorem mkRegistry_entries_aux (l : List CmdSpec) :
    ∀ r : Registry, r.entries.length + l.length ≤ MAX_COMMANDS →
      (l.foldl (fun r s => register_command r (some s)) r).entries = r.entries ++ l := by
  induction l with
  | nil => intro r _; simp
  | cons a t ih =>
    intro r hlen
    simp only [List.foldl_cons]
    have hlt : ¬ MAX_COMMANDS ≤ r.entries.length := by
      simp at hlen ⊢
      omega
    rw [show register_command r (some a) = ⟨r.entries ++ [a]⟩ by
      simp [register_command, hlt]]
    rw [ih ⟨r.entries ++ [a]⟩ (by simp at hlen ⊢; omega)]
    simp

theorem mkRegistry_entries (l : List CmdSpec) (h : l.length ≤ MAX_COMMANDS) :
    (mkRegistry l).entries = l := by
  unfold mkRegistry
  rw [mkRegistry_entries_aux l emptyRegistry (by simpa [emptyRegistry] using h)]
  simp [emptyRegistry]

/--
Claim C8: register_command is idempotent with respect to observable lookup:
for every registry state and every command specification, registering a second
entry whose name equals the name of an already registered entry does not change
what find_command observes, for any queried name.
-/
theorem c8_register_no_observable_duplicate (reg : Registry) (s : CmdSpec)
    (nm : String) (e : CmdSpec) (n : Option String)
    (hs : s.name = some nm)
    (hfound : find_command reg (some nm) = some e) :
    find_command (register_command reg (some s)) n = find_command reg n :=
  find_after_register_dup reg s nm e hs hfound n

/-- Claim C8 witness at a concrete registry. -/
theorem c8_witness :
    (⟨some "echo", 1⟩ : CmdSpec).name = some "echo" ∧
    find_command ⟨[⟨some "echo", 0⟩]⟩ (some "echo") = some ⟨some "echo", 0⟩ ∧
    find_command (register_command ⟨[⟨some "echo", 0⟩]⟩ (some ⟨some "echo", 1⟩))
        (some "echo") = find_command ⟨[⟨some "echo", 0⟩]⟩ (some "echo") :=
  ⟨rfl, by decide,
   c8_register_no_observable_duplicate ⟨[⟨some "echo", 0⟩]⟩ ⟨some "echo", 1⟩
     "echo" ⟨some "echo", 0⟩ (some "echo") rfl (by decide)⟩

/--
Claim C10: for every sequence of successful register_command calls, find_command
returns the earliest registered entry whose name compares equal to the queried
name; registering a later entry that reuses an already registered name never
changes the result of find_command for any name; and find_command applied to a
null name returns no entry.
-/
theorem c10_find_earliest_and_null :
    (∀ (l : List CmdSpec) (n : String) (e : CmdSpec), l.length ≤ MAX_COMMANDS →
      find_command (mkRegistry l) (some n) = some e →
      ∃ i, i < l.length ∧ l[i]? = some e ∧ e.name = some n ∧
        ∀ j, j < i → ∀ x, l[j]? = some x → x.name ≠ some n) ∧
    (∀ (reg : Registry) (s : CmdSpec) (nm : String) (e : CmdSpec) (n : Option String),
      s.name = some nm → find_command reg (some nm) = some e →
      find_command (register_command reg (some s)) n = find_command reg n) ∧
    (∀ reg : Registry, find_command reg none = none) := by
  refine ⟨?_, ?_, ?_⟩
  · intro l n e hlen hfind
    rw [find_command, mkRegistry_entries l hlen] at hfind
    obtain ⟨i, hi, hget, hpe, hmin⟩ := find?_earliest _ _ _ hfind
    refine ⟨i, hi, hget, of_decide_eq_true hpe, ?_⟩
    intro j hj x hx
    have := hmin j hj x hx
    simpa using this
  · intro reg s nm e n hs hfound
    exact find_after_register_dup reg s nm e hs hfound n
  · intro reg; rfl

/-- Claim C10 witness at a concrete registration sequence. -/
theorem c10_witness :
    ([⟨some "ls", 0⟩, ⟨some "ls", 1⟩] : List CmdSpec).length ≤ MAX_COMMANDS ∧
    find_command (mkRegistry [⟨some "ls", 0⟩, ⟨some "ls", 1⟩]) (some "ls") =
      some ⟨some "ls", 0⟩ ∧
    (∃ i, i < 2 ∧ ([⟨some "ls", 0⟩, ⟨some "ls", 1⟩] : List CmdSpec)[i]? =
        some ⟨some "ls", 0⟩ ∧ (⟨some "ls", 0⟩ : CmdSpec).name = some "ls" ∧
      ∀ j, j < i → ∀ x, ([⟨some "ls", 0⟩, ⟨some "ls", 1⟩] : List CmdSpec)[j]? =
        some x → x.name ≠ some "ls") ∧
    find_command emptyRegistry none = none :=
  ⟨by decide, by decide,
   c10_find_earliest_and_null.1 [⟨some "ls", 0⟩, ⟨some "ls", 1⟩] "ls"
     ⟨some "ls", 0⟩ (by decide) (by decide),
   c10_find_earliest_and_null.2.2 emptyRegistry⟩

theorem erase_append_pair (l : List Nat) (r w : Nat)
    (hr : r ∉ l) (hw : w ∉ l) :
    ((l ++ [r, w]).erase r).erase w = l := by
  induction l with
  | nil =>
    simp [List.erase_cons_head]
  | cons a t ih =>
    have har : a ≠ r := by intro h; exact hr (by simp [h])
    have haw : a ≠ w := by intro h; exact hw (by simp [h])
    have ht := ih (by intro h; exact hr (by simp [h])) (by intro h; exact hw (by simp [h]))
    rw [List.cons_append, List.erase_cons_tail (by simpa using har),
        List.erase_cons_tail (by simpa using haw), ht]

theorem loopState_spawned (k : Nat) : (loopState k).spawned = k := by
  cases k <;> simp [loopState]

theorem loopState_succ_succ (j : Nat) :
    loopState (j + 2) =
      ⟨2 * j + 2 + 2, [2 * j + 2, 2 * j + 2 + 1],
       some (2 * j + 2, 2 * j + 2 + 1), j + 2, j + 2⟩ := by
  show (⟨2 * (j + 1) + 2, [2 * (j + 1), 2 * (j + 1) + 1],
         some (2 * (j + 1), 2 * (j + 1) + 1), j + 2, j + 2⟩ : SpawnState) = _
  have h2 : 2 * (j + 1) = 2 * j + 2 := by omega
  rw [h2]

/- One successful last iteration of the spawn loop. -/
theorem spawnGo_last (env : PipeEnv) (k : Nat) (x : List String)
    (hf : env.forkOk k = true) :
    spawnGo env k (loopState k) [x] = Except.ok (endState (k + 1)) := by
  cases k with
  | zero =>
    simp [spawnGo, hf, loopState, closePrev, endState]
  | succ j =>
    simp only [spawnGo, hf, if_true, loopState, closePrev]
    rw [show ([2 * j, 2 * j + 1] : List Nat) = [] ++ [2 * j, 2 * j + 1] from rfl]
    rw [erase_append_pair [] (2 * j) (2 * j + 1) (by simp) (by simp)]
    simp [endState]

/- One successful non last iteration of the spawn loop moves the orchestrator
from the entry state of iteration k to the entry state of iteration k + 1. -/
theorem spawnGo_step (env : PipeEnv) (k : Nat) (x b : List String)
    (rest : List (List String))
    (hp : env.pipeOk k = true) (hf : env.forkOk k = true) :
    spawnGo env k (loopState k) (x :: b :: rest) =
      spawnGo env (k + 1) (loopState (k + 1)) (b :: rest) := by
  cases k with
  | zero =>
    simp [spawnGo, hp, hf, loopState, closePrev]
  | succ j =>
    simp only [spawnGo, hp, hf, if_true, loopState, closePrev]
    rw [show ([2 * j + 2, 2 * j + 2 + 1, 2 * j, 2 * j + 1] : List Nat) =
        [2 * j + 2, 2 * j + 2 + 1] ++ [2 * j, 2 * j + 1] from rfl]
    rw [erase_append_pair [2 * j + 2, 2 * j + 2 + 1] (2 * j) (2 * j + 1)
        (by simp only [List.mem_cons, List.not_mem_nil, or_false]; omega)
        (by simp only [List.mem_cons, List.not_mem_nil, or_false]; omega)]
    have h2 : 2 * (j + 1) = 2 * j + 2 := by omega
    rw [h2]

/- The spawn loop succeeds when every pipe and fork call it makes succeeds,
and lands in the fully spawned end state. -/
theorem spawnGo_ok (env : PipeEnv) :
    ∀ (stages : List (List String)), ∀ k : Nat, stages ≠ [] →
    (∀ j, k ≤ j → j + 1 < k + stages.length → env.pipeOk j = true) →
    (∀ j, k ≤ j → j < k + stages.length → env.forkOk j = true) →
    spawnGo env k (loopState k) stages = Except.ok (endState (k + stages.length)) := by
  intro stages
  induction stages with
  | nil => intro k h _ _; exact absurd rfl h
  | cons x t ih =>
    intro k _ hp hf
    cases t with
    | nil =>
      have hfk : env.forkOk k = true := hf k (Nat.le_refl k) (by simp)
      simpa using spawnGo_last env k x hfk
    | cons b rest =>
      have hpk : env.pipeOk k = true :=
        hp k (Nat.le_refl k) (by simp only [List.length_cons]; omega)
      have hfk : env.forkOk k = true :=
        hf k (Nat.le_refl k) (by simp only [List.length_cons]; omega)
      rw [spawnGo_step env k x b rest hpk hfk]
      have hlen : (k + 1) + (b :: rest).length = k + (x :: b :: rest).length := by
        simp only [List.length_cons]; omega
      rw [show k + (x :: b :: rest).length = (k + 1) + (b :: rest).length from hlen.symm]
      exact ih (k + 1) (by simp)
        (fun j h1 h2 => hp j (by omega) (by omega))
        (fun j h1 h2 => hf j (by omega) (by omega))

/- If the first failing pipe or fork call happens at iteration t, the spawn
loop returns the EXIT_ERROR result at once, with nothing awaited and exactly
the children of iterations before t spawned. -/
theorem spawnGo_fail (env : PipeEnv) :
    ∀ (stages : List (List String)), ∀ k t : Nat, t < stages.length →
    (∀ j, j < t → env.pipeOk (k + j) = true) →
    (∀ j, j < t → env.forkOk (k + j) = true) →
    ((t + 1 < stages.length ∧
        (env.pipeOk (k + t) = false ∨ env.forkOk (k + t) = false)) ∨
      (t + 1 = stages.length ∧ env.forkOk (k + t) = false)) →
    ∃ r, spawnGo env k (loopState k) stages = Except.error r ∧
      r.ret = EXIT_ERROR ∧ r.awaited = [] ∧ r.spawned = k + t := by
  intro stages
  induction stages with
  | nil => intro k t ht _ _ _; simp at ht
  | cons x tl ih =>
    intro k t ht hp hf hfail
    cases t with
    | zero =>
      rw [Nat.add_zero]
      cases tl with
      | nil =>
        have hfk : env.forkOk k = false := by
          rcases hfail with ⟨hlt, _⟩ | ⟨_, hfk⟩
          · simp at hlt
          · simpa using hfk
        refine ⟨⟨EXIT_ERROR, (loopState k).pipesCreated, (loopState k).spawned,
          [], (loopState k).openFds⟩, ?_, rfl, rfl, ?_⟩
        · simp [spawnGo, hfk]
        · simp [loopState_spawned]
      | cons b rest =>
        by_cases hpk : env.pipeOk k = true
        · have hfk : env.forkOk k = false := by
            rcases hfail with ⟨_, hpf | hff⟩ | ⟨heq, hff⟩
            · rw [Nat.add_zero] at hpf; rw [hpk] at hpf; exact Bool.noConfusion hpf
            · simpa using hff
            · simpa using hff
          refine ⟨⟨EXIT_ERROR, (loopState k).pipesCreated + 1, (loopState k).spawned,
            [], (loopState k).nextFd :: ((loopState k).nextFd + 1) :: (loopState k).openFds⟩,
            ?_, rfl, rfl, ?_⟩
          · simp [spawnGo, hpk, hfk]
          · simp [loopState_spawned]
        · have hpk2 : env.pipeOk k = false := by
            revert hpk; cases env.pipeOk k <;> simp
          refine ⟨⟨EXIT_ERROR, (loopState k).pipesCreated, (loopState k).spawned,
            [], (loopState k).openFds⟩, ?_, rfl, rfl, ?_⟩
          · simp [spawnGo, hpk2]
          · simp [loopState_spawned]
    | succ t2 =>
      cases tl with
      | nil => simp only [List.length_cons, List.length_nil] at ht; omega
      | cons b rest =>
        have hpk : env.pipeOk k = true := by
          have := hp 0 (Nat.succ_pos t2); simpa using this
        have hfk : env.forkOk k = true := by
          have := hf 0 (Nat.succ_pos t2); simpa using this
        rw [spawnGo_step env k x b rest hpk hfk]
        obtain ⟨r, hr, hret, hawait, hsp⟩ := ih (k + 1) t2 (by simp at ht ⊢; omega)
          (fun j hj => by
            have := hp (j + 1) (by omega)
            rwa [show k + (j + 1) = k + 1 + j by omega] at this)
          (fun j hj => by
            have := hf (j + 1) (by omega)
            rwa [show k + (j + 1) = k + 1 + j by omega] at this)
          (by
            rcases hfail with ⟨hlt, hd⟩ | ⟨heq, hff⟩
            · left
              refine ⟨by simp at hlt ⊢; omega, ?_⟩
              rwa [show k + 1 + t2 = k + (t2 + 1) by omega]
            · right
              refine ⟨by simp at heq ⊢; omega, ?_⟩
              rwa [show k + 1 + t2 = k + (t2 + 1) by omega])
        exact ⟨r, hr, hret, hawait, by omega⟩

theorem waitLoop_append (env : PipeEnv) (c : Nat) (l1 l2 : List Nat) :
    ∀ acc, waitLoop env c acc (l1 ++ l2) = waitLoop env c (waitLoop env c acc l1) l2 := by
  induction l1 with
  | nil => intro acc; rfl
  | cons i t ih => intro acc; simp only [List.cons_append, waitLoop]; exact ih _

/- When waitpid on the last child succeeds, the wait loop returns the
translated termination status of the last child, whatever happened before. -/
theorem waitLoop_range_last (env : PipeEnv) (n : Nat) (acc : Int)
    (st : ChildStatus) (h : env.wait n = some st) :
    waitLoop env (n + 1) acc (List.range (n + 1)) = statusOf st := by
  rw [List.range_succ, waitLoop_append]
  simp [waitLoop, h]

theorem closePrev_endState (n : Nat) : closePrev (endState n) = endState n := by
  match n with
  | 0 => rfl
  | 1 => rfl
  | k + 2 => simp [endState, closePrev, List.erase_nil]

theorem endState_pipes (n : Nat) : (endState (n + 1)).pipesCreated = n := by
  match n with
  | 0 => rfl
  | k + 1 => rfl

theorem endState_spawned (n : Nat) : (endState (n + 1)).spawned = n + 1 := by
  match n with
  | 0 => rfl
  | k + 1 => rfl

theorem endState_open (n : Nat) : (endState (n + 1)).openFds = [] := by
  match n with
  | 0 => rfl
  | k + 1 => rfl

/- Full evaluation of exec_pipeline when malloc and every pipe and fork call
succeed. -/
theorem exec_pipeline_ok_eval (env : PipeEnv) (a : List String)
    (t : List (List String)) (hm : env.mallocOk = true)
    (hp : ∀ j, j + 1 < (a :: t).length → env.pipeOk j = true)
    (hf : ∀ j, j < (a :: t).length → env.forkOk j = true) :
    exec_pipeline env (a :: t) =
      { ret := waitLoop env (t.length + 1) 0 (List.range (t.length + 1)),
        pipesCreated := t.length, spawned := t.length + 1,
        awaited := List.range (t.length + 1), openFds := [] } := by
  have hsp := spawnGo_ok env (a :: t) 0 (by simp)
    (fun j h1 h2 => hp j (by omega)) (fun j h1 h2 => hf j (by omega))
  rw [show (0 + (a :: t).length) = t.length + 1 by simp] at hsp
  unfold exec_pipeline
  simp only [List.isEmpty_cons, Bool.false_eq_true, if_false, hm,
    eq_self_iff_true, if_true]
  rw [show (⟨0, [], none, 0, 0⟩ : SpawnState) = loopState 0 from rfl, hsp]
  simp only [closePrev_endState, endState_pipes, endState_spawned, endState_open,
    List.length_cons]

/--
Claim C1: for every pipeline of N >= 1 stages in which exec_pipeline spawns
all N children and every waitpid call succeeds, the returned value is
determined by the termination status of the last stage only: its exit code on
normal exit, 128 plus the signal number on termination by signal; earlier
stages do not affect it.
-/
theorem c1_pipeline_result_from_last_stage (env : PipeEnv)
    (stages : List (List String)) (st : ChildStatus)
    (hne : stages ≠ [])
    (hm : env.mallocOk = true)
    (hp : ∀ j, j + 1 < stages.length → env.pipeOk j = true)
    (hf : ∀ j, j < stages.length → env.forkOk j = true)
    (hw : ∀ j, j < stages.length → (env.wait j).isSome = true)
    (hlast : env.wait (stages.length - 1) = some st) :
    (exec_pipeline env stages).ret = statusOf st := by
  cases stages with
  | nil => exact absurd rfl hne
  | cons a t =>
    rw [exec_pipeline_ok_eval env a t hm hp hf]
    show waitLoop env (t.length + 1) 0 (List.range (t.length + 1)) = statusOf st
    exact waitLoop_range_last env t.length 0 st (by simpa using hlast)

/-- Claim C1 witness: a concrete two stage pipeline whose last stage exited
with code 3 makes exec_pipeline return 3. -/
theorem c1_witness :
    envAllOk3.mallocOk = true ∧
    envAllOk3.wait (([["cat", "f.txt"], ["wc", "-l"]].length : Nat) - 1) =
      some (ChildStatus.exited 3) ∧
    (exec_pipeline envAllOk3 [["cat", "f.txt"], ["wc", "-l"]]).ret =
      statusOf (ChildStatus.exited 3) :=
  ⟨rfl, rfl,
   c1_pipeline_result_from_last_stage envAllOk3 [["cat", "f.txt"], ["wc", "-l"]]
     (ChildStatus.exited 3) (by simp) rfl (fun j _ => rfl) (fun j _ => rfl)
     (fun j _ => rfl) rfl⟩

/--
Claim C3: when every pipe and fork call succeeds, an exec_pipeline call on
N >= 1 stages creates exactly N - 1 pipes, forks exactly N children, calls
waitpid on every child exactly once, and returns with no descriptor of any
pipe it created still open in the orchestrating process.
-/
theorem c3_resource_invariant (env : PipeEnv) (stages : List (List String))
    (hne : stages ≠ [])
    (hm : env.mallocOk = true)
    (hp : ∀ j, j + 1 < stages.length → env.pipeOk j = true)
    (hf : ∀ j, j < stages.length → env.forkOk j = true) :
    (exec_pipeline env stages).pipesCreated = stages.length - 1 ∧
    (exec_pipeline env stages).spawned = stages.length ∧
    (exec_pipeline env stages).awaited = List.range stages.length ∧
    (exec_pipeline env stages).openFds = [] := by
  cases stages with
  | nil => exact absurd rfl hne
  | cons a t =>
    rw [exec_pipeline_ok_eval env a t hm hp hf]
    refine ⟨?_, ?_, ?_, rfl⟩
    · show t.length = (a :: t).length - 1
      simp
    · show t.length + 1 = (a :: t).length
      simp
    · show List.range (t.length + 1) = List.range (a :: t).length
      simp

/-- Claim C3 witness at a concrete three stage pipeline. -/
theorem c3_witness :
    envAllOk3.mallocOk = true ∧
    (exec_pipeline envAllOk3 [["cat"], ["grep", "x"], ["wc"]]).pipesCreated = 2 ∧
    (exec_pipeline envAllOk3 [["cat"], ["grep", "x"], ["wc"]]).spawned = 3 ∧
    (exec_pipeline envAllOk3 [["cat"], ["grep", "x"], ["wc"]]).awaited =
      List.range 3 ∧
    (exec_pipeline envAllOk3 [["cat"], ["grep", "x"], ["wc"]]).openFds = [] :=
  ⟨rfl,
   (c3_resource_invariant envAllOk3 [["cat"], ["grep", "x"], ["wc"]]
     (by simp) rfl (fun j _ => rfl) (fun j _ => rfl)).1,
   (c3_resource_invariant envAllOk3 [["cat"], ["grep", "x"], ["wc"]]
     (by simp) rfl (fun j _ => rfl) (fun j _ => rfl)).2⟩

/--
Claim C4 counterexample: with fork failing at stage 1 of a two stage
pipeline, one child has already been spawned, yet exec_pipeline returns the
orchestrator level error without calling waitpid on any child, so the
already spawned child is not awaited, contradicting the claim.
-/
theorem c4_counterexample :
    (exec_pipeline envForkFail1 [["producer"], ["consumer"]]).spawned = 1 ∧
    ¬ (0 ∈ (exec_pipeline envForkFail1 [["producer"], ["consumer"]]).awaited) ∧
    (exec_pipeline envForkFail1 [["producer"], ["consumer"]]).ret = EXIT_ERROR := by
  decide

/--
Claim C4 amended: if a spawn step (pipe or fork) fails at stage t of a
pipeline, exec_pipeline returns the orchestrator level error EXIT_ERROR
immediately, awaiting none of the children already spawned for stages
0 .. t - 1 (they are left unreaped); exactly t children have been spawned at
that point, so a failure at stage 0 leaves no child process behind.
-/
theorem c4_spawn_failure_returns_without_await (env : PipeEnv)
    (stages : List (List String)) (t : Nat)
    (hm : env.mallocOk = true)
    (ht : t < stages.length)
    (hp : ∀ j, j < t → env.pipeOk j = true)
    (hf : ∀ j, j < t → env.forkOk j = true)
    (hfail : (t + 1 < stages.length ∧
        (env.pipeOk t = false ∨ env.forkOk t = false)) ∨
      (t + 1 = stages.length ∧ env.forkOk t = false)) :
    (exec_pipeline env stages).ret = EXIT_ERROR ∧
    (exec_pipeline env stages).awaited = [] ∧
    (exec_pipeline env stages).spawned = t := by
  obtain ⟨r, hr, hret, hawait, hsp⟩ := spawnGo_fail env stages 0 t ht
    (fun j hj => by simpa using hp j hj)
    (fun j hj => by simpa using hf j hj)
    (by
      rcases hfail with ⟨h1, h2⟩ | ⟨h1, h2⟩
      · exact Or.inl ⟨h1, by simpa using h2⟩
      · exact Or.inr ⟨h1, by simpa using h2⟩)
  cases stages with
  | nil => simp at ht
  | cons a tl =>
    unfold exec_pipeline
    simp only [List.isEmpty_cons, Bool.false_eq_true, if_false, hm,
      eq_self_iff_true, if_true]
    rw [show (⟨0, [], none, 0, 0⟩ : SpawnState) = loopState 0 from rfl, hr]
    show r.ret = EXIT_ERROR ∧ r.awaited = [] ∧ r.spawned = t
    exact ⟨hret, hawait, by omega⟩

/-- Claim C4 witness for the amended statement: fork fails at stage 1, the
call errors with one child spawned and none awaited. -/
theorem c4_witness :
    envForkFail1.mallocOk = true ∧
    (1 : Nat) < ([["producer"], ["consumer"]] : List (List String)).length ∧
    (exec_pipeline envForkFail1 [["producer"], ["consumer"]]).ret = EXIT_ERROR ∧
    (exec_pipeline envForkFail1 [["producer"], ["consumer"]]).awaited = [] ∧
    (exec_pipeline envForkFail1 [["producer"], ["consumer"]]).spawned = 1 :=
  ⟨rfl, by simp,
   (c4_spawn_failure_returns_without_await envForkFail1
     [["producer"], ["consumer"]] 1 rfl (by simp)
     (fun j hj => by
       have hj0 : j = 0 := by omega
       subst hj0; rfl)
     (fun j hj => by
       have hj0 : j = 0 := by omega
       subst hj0; rfl)
     (Or.inr ⟨by simp, rfl⟩))⟩

/--
Claim C7: for every argument vector with a program name, a pipeline of the
single stage argv returns the same exit status as exec_command_external on
argv when the single await succeeds: no pipe is created, exactly one child is
spawned and awaited, and the termination status is translated identically.
-/
theorem c7_singleton_pipeline_matches_external (env : PipeEnv)
    (argv : List String) (st : ChildStatus)
    (hne : argv ≠ [])
    (hm : env.mallocOk = true)
    (hf : env.forkOk 0 = true)
    (hw : env.wait 0 = some st) :
    (exec_pipeline env [argv]).ret =
      exec_command_external (env.forkOk 0) (env.wait 0) argv ∧
    (exec_pipeline env [argv]).pipesCreated = 0 ∧
    (exec_pipeline env [argv]).spawned = 1 ∧
    (exec_pipeline env [argv]).awaited = [0] := by
  have heval := exec_pipeline_ok_eval env argv [] hm
    (fun j h => by simp at h)
    (fun j h => by
      simp only [List.length_cons, List.length_nil] at h
      have hj : j = 0 := by omega
      subst hj; exact hf)
  rw [heval]
  cases argv with
  | nil => exact absurd rfl hne
  | cons p args =>
    refine ⟨?_, rfl, rfl, ?_⟩
    · show waitLoop env (0 + 1) 0 (List.range (0 + 1)) =
        exec_command_external (env.forkOk 0) (env.wait 0) (p :: args)
      rw [waitLoop_range_last env 0 0 st hw]
      simp [exec_command_external, hf, hw]
    · show List.range (0 + 1) = [0]
      simp [List.range_succ]

/-- Claim C7 witness at a concrete one stage pipeline. -/
theorem c7_witness :
    envAllOk3.mallocOk = true ∧
    envAllOk3.forkOk 0 = true ∧
    envAllOk3.wait 0 = some (ChildStatus.exited 3) ∧
    (exec_pipeline envAllOk3 [["ls", "-l"]]).ret =
      exec_command_external (envAllOk3.forkOk 0) (envAllOk3.wait 0) ["ls", "-l"] ∧
    (exec_pipeline envAllOk3 [["ls", "-l"]]).pipesCreated = 0 ∧
    (exec_pipeline envAllOk3 [["ls", "-l"]]).spawned = 1 ∧
    (exec_pipeline envAllOk3 [["ls", "-l"]]).awaited = [0] :=
  ⟨rfl, rfl, rfl,
   c7_singleton_pipeline_matches_external envAllOk3 ["ls", "-l"]
     (ChildStatus.exited 3) (by simp) rfl rfl rfl⟩

/--
Claim C2 counterexample: the last stage of producer | consumer > out.txt
carries an output redirection, yet the action list of the child spawned for
it contains no redirection application at all, so the redirection is not
applied after the pipe connections, contrary to the claim.
-/
theorem c2_counterexample :
    ¬ ∃ a ∈ pipelineChildActions (some (0, 1)) none
        (simple_command_to_argv
          ⟨"consumer", [], [⟨RedirType.output, some "out.txt"⟩]⟩),
      a.isApplyRedir = true := by
  decide

/--
Claim C2 amended: a pipeline stage never has its redirections applied: the
pipeline path converts each stage with simple_command_to_argv, which keeps
only the program and its arguments, and the child spawned by exec_pipeline
only wires the pipe descriptors and loads the program image, so a
redirection carried on any pipeline stage is silently discarded.
-/
theorem c2_pipeline_redirections_dropped :
    (∀ (env : PipeEnv) (stages : List SimpleCommand), stages ≠ [] →
      execute_pipeline_command env stages =
        (exec_pipeline env (stages.map fun sc => sc.program :: sc.args)).ret) ∧
    (∀ (prevPipe currPipe : Option (Nat × Nat)) (sc : SimpleCommand)
        (a : ChildAction),
      a ∈ pipelineChildActions prevPipe currPipe (simple_command_to_argv sc) →
      a.isApplyRedir = false) := by
  constructor
  · intro env stages hne
    cases stages with
    | nil => exact absurd rfl hne
    | cons a t => rfl
  · intro prevPipe currPipe sc a ha
    cases a with
    | applyRedir r =>
      exfalso
      rcases prevPipe with _ | ⟨pr, pw⟩ <;> rcases currPipe with _ | ⟨cr, cw⟩ <;>
        simp [pipelineChildActions] at ha
    | dupStdin fd => rfl
    | dupStdout fd => rfl
    | closeFd fd => rfl
    | execProg argv => rfl

/-- Claim C2 witness at the concrete pipeline producer | consumer > out.txt. -/
theorem c2_witness :
    execute_pipeline_command envAllOk3
      [⟨"producer", [], []⟩,
       ⟨"consumer", [], [⟨RedirType.output, some "out.txt"⟩]⟩] =
      (exec_pipeline envAllOk3 [["producer"], ["consumer"]]).ret ∧
    (ChildAction.execProg ["consumer"]).isApplyRedir = false :=
  ⟨c2_pipeline_redirections_dropped.1 envAllOk3
     [⟨"producer", [], []⟩,
      ⟨"consumer", [], [⟨RedirType.output, some "out.txt"⟩]⟩] (by simp),
   c2_pipeline_redirections_dropped.2 (some (0, 1)) none
     ⟨"consumer", [], [⟨RedirType.output, some "out.txt"⟩]⟩
     (ChildAction.execProg ["consumer"]) (by decide)⟩

/--
Claim C5 counterexample: a child whose input redirection fails _exits with
status 1 (EXIT_ERROR), while a child whose program is missing _exits with
127; the two statuses differ, so a redirection failure does not produce the
not found class status the claim asserts.
-/
theorem c5_counterexample :
    childRun worldNoRead ["cat"] [⟨RedirType.input, some "missing.txt"⟩] =
      ChildOutcome.exitedBeforeExec 1 ∧
    childRun worldNoRead ["nosuchprog"] [] =
      ChildOutcome.exitedAfterExecFail 127 ∧
    exec_command_with_redirects worldNoRead ["cat"]
      [⟨RedirType.input, some "missing.txt"⟩] = 1 ∧
    (1 : Nat) ≠ 127 := by
  decide

/--
Claim C5 amended: whenever applying the redirections of a command fails
inside the spawned child, that child terminates before the program image is
loaded with exit status 1 (EXIT_ERROR), a non zero status distinct from the
127 of a missing program; the failure stays local to that child and reaches
the caller as an ordinary exit code, never as a structural error.
-/
theorem c5_redirect_failure_local (w : World) (p : String) (args : List String)
    (redirs : List Redirection)
    (hne : 0 < redirs.length)
    (hfailr : apply_redirections w redirs < 0)
    (hf : w.forkOk = true) (hwt : w.waitOk = true) :
    childRun w (p :: args) redirs = ChildOutcome.exitedBeforeExec 1 ∧
    exec_command_with_redirects w (p :: args) redirs = 1 ∧
    dispatchOutcome (exec_command_with_redirects w (p :: args) redirs) =
      ExitOutcome.code 1 ∧
    (1 : Int) ≠ 127 := by
  have h1 : childRun w (p :: args) redirs = ChildOutcome.exitedBeforeExec 1 := by
    unfold childRun
    rw [if_pos ⟨hne, hfailr⟩]
  have h2 : exec_command_with_redirects w (p :: args) redirs = 1 := by
    unfold exec_command_with_redirects childTermination
    rw [h1]
    simp [hf, hwt]
  exact ⟨h1, h2, by rw [h2]; rfl, by decide⟩

/-- Claim C5 witness: a concrete failing input redirection. -/
theorem c5_witness :
    (0 : Nat) < ([⟨RedirType.input, some "missing.txt"⟩] : List Redirection).length ∧
    apply_redirections worldNoRead [⟨RedirType.input, some "missing.txt"⟩] < 0 ∧
    worldNoRead.forkOk = true ∧ worldNoRead.waitOk = true ∧
    (childRun worldNoRead ["cat"] [⟨RedirType.input, some "missing.txt"⟩] =
      ChildOutcome.exitedBeforeExec 1 ∧
     exec_command_with_redirects worldNoRead ["cat"]
       [⟨RedirType.input, some "missing.txt"⟩] = 1 ∧
     dispatchOutcome (exec_command_with_redirects worldNoRead ["cat"]
       [⟨RedirType.input, some "missing.txt"⟩]) = ExitOutcome.code 1 ∧
     (1 : Int) ≠ 127) :=
  ⟨by decide, by decide, rfl, rfl,
   c5_redirect_failure_local worldNoRead "cat" []
     [⟨RedirType.input, some "missing.txt"⟩] (by decide) (by decide) rfl rfl⟩

/--
Claim C6: executing a SimpleCommand whose program name names no loadable
executable makes the child _exit with 127 after the failed exec attempt; the
dispatcher returns 127 to the caller as an ordinary exit code, shell state
is untouched, no structural error is raised and the session continues.
-/
theorem c6_not_found_surfaces_127 (w : World) (sw : ShellWorld)
    (st : ShellState) (sc : SimpleCommand)
    (hb : is_builtin sc.program = false)
    (hx : w.execOk sc.program = false)
    (hr : extract_redirections sc = [] ∨
      apply_redirections w (extract_redirections sc) = 0)
    (hf : w.forkOk = true) (hwt : w.waitOk = true) :
    childRun w (simple_command_to_argv sc) (extract_redirections sc) =
      ChildOutcome.exitedAfterExecFail 127 ∧
    (execute_single_simple_command w sw st sc).1 = 127 ∧
    (execute_single_simple_command w sw st sc).2 = st ∧
    dispatchOutcome (execute_single_simple_command w sw st sc).1 =
      ExitOutcome.code 127 := by
  have hnot : ¬ (0 < (extract_redirections sc).length ∧
      apply_redirections w (extract_redirections sc) < 0) := by
    rcases hr with h | h
    · intro hc
      rw [h] at hc
      simp at hc
    · intro hc
      rw [h] at hc
      exact absurd hc.2 (by norm_num)
  have h1 : childRun w (simple_command_to_argv sc) (extract_redirections sc) =
      ChildOutcome.exitedAfterExecFail 127 := by
    unfold childRun
    rw [if_neg hnot]
    show (if w.execOk sc.program then ChildOutcome.execed (simple_command_to_argv sc)
      else ChildOutcome.exitedAfterExecFail 127) = _
    rw [hx]
    rfl
  have h2 : exec_command_with_redirects w (simple_command_to_argv sc)
      (extract_redirections sc) = 127 := by
    show (if w.forkOk then
        if w.waitOk then
          match childTermination w (simple_command_to_argv sc)
            (extract_redirections sc) with
          | ChildStatus.exited c => (c : Int)
          | ChildStatus.signaled s => 128 + (s : Int)
        else EXIT_ERROR
      else EXIT_ERROR) = 127
    rw [hf, hwt]
    unfold childTermination
    rw [h1]
    rfl
  have h3 : execute_single_simple_command w sw st sc =
      (exec_command_with_redirects w (simple_command_to_argv sc)
        (extract_redirections sc), st) := by
    unfold execute_single_simple_command
    rw [hb]
    rfl
  refine ⟨h1, ?_, ?_, ?_⟩
  · rw [h3]; exact h2
  · rw [h3]
  · rw [h3]
    show dispatchOutcome (exec_command_with_redirects w
      (simple_command_to_argv sc) (extract_redirections sc)) = _
    rw [h2]
    rfl

/-- Claim C6 witness: a concrete command naming a missing program. -/
theorem c6_witness :
    is_builtin (SimpleCommand.mk "nosuchprog" [] []).program = false ∧
    worldNoProg.execOk (SimpleCommand.mk "nosuchprog" [] []).program = false ∧
    worldNoProg.forkOk = true ∧ worldNoProg.waitOk = true ∧
    ((execute_single_simple_command worldNoProg shellWorld9 ⟨"/start"⟩
        ⟨"nosuchprog", [], []⟩).1 = 127 ∧
     (execute_single_simple_command worldNoProg shellWorld9 ⟨"/start"⟩
        ⟨"nosuchprog", [], []⟩).2 = ⟨"/start"⟩ ∧
     dispatchOutcome (execute_single_simple_command worldNoProg shellWorld9
        ⟨"/start"⟩ ⟨"nosuchprog", [], []⟩).1 = ExitOutcome.code 127) :=
  ⟨by decide, rfl, rfl, rfl,
   (c6_not_found_surfaces_127 worldNoProg shellWorld9 ⟨"/start"⟩
     ⟨"nosuchprog", [], []⟩ (by decide) rfl (Or.inl rfl) rfl rfl).2⟩

/--
Claim C9: the builtin change directory called on a path naming no existing
directory returns the non zero code EXIT_ERROR, leaves the effective working
directory of the shell unchanged, and never terminates the shell session.
-/
theorem c9_cd_nonexistent_path (sw : ShellWorld) (st : ShellState)
    (path : String) (h : path ∉ sw.dirs) :
    builtin_cd sw st ["cd", path] = (EXIT_ERROR, st) ∧
    exec_builtin sw st ["cd", path] = (EXIT_ERROR, st) ∧
    EXIT_ERROR ≠ builtin_exit ∧
    dispatchOutcome EXIT_ERROR = ExitOutcome.code EXIT_ERROR := by
  have hcd : builtin_cd sw st ["cd", path] = (EXIT_ERROR, st) := by
    unfold builtin_cd chdir
    simp [h]
  exact ⟨hcd, hcd, by decide, rfl⟩

/-- Claim C9 witness: cd to a concrete nonexistent path. -/
theorem c9_witness :
    "/nope" ∉ shellWorld9.dirs ∧
    (builtin_cd shellWorld9 ⟨"/start"⟩ ["cd", "/nope"] = (EXIT_ERROR, ⟨"/start"⟩) ∧
     exec_builtin shellWorld9 ⟨"/start"⟩ ["cd", "/nope"] = (EXIT_ERROR, ⟨"/start"⟩) ∧
     EXIT_ERROR ≠ builtin_exit ∧
     dispatchOutcome EXIT_ERROR = ExitOutcome.code EXIT_ERROR) :=
  ⟨by decide,
   c9_cd_nonexistent_path shellWorld9 ⟨"/start"⟩ "/nope" (by decide)⟩

end Picobox


